import Mathlib

/-!
Verification development for the MolGPT front end (event bus, form
components, generation controller, results rendering).

The JavaScript sources are shallowly embedded: each class's mutable
state becomes a Lean structure, each handler becomes a pure function
from state (plus the event's data) to state, and handlers whose only
observable effects are event emissions / network calls additionally
return a trace of actions.  JS `Map` objects are modelled as total
functions from keys to values, with the absent key mapped to the empty
list; JS `undefined` becomes `Option.none`; JS numbers become `Int`
(for integer-valued fields) or `ℚ` (for float-valued fields); a thrown
exception in a callback is modelled by the callback's behaviour
function returning `false`.
-/

namespace MolGPT

/-! ### EventBus (src/scripts/utils/EventBus.js)

A listener record keeps the fields of the source's listener object that
are semantically relevant (`id`, `once`); the callback itself is
identified by the listener id, and a behaviour function
`beh : Nat → Bool` tells, per listener id, whether the callback returns
normally (`true`) or throws (`false`).  `this.events` (a
`Map<string, Listener[]>`) is the function `Events`. -/

structure Listener where
  id : Nat
  once : Bool
  deriving DecidableEq, Repr

/-- The `this.events` map: event name ↦ ordered listener list; a name
that is not a key of the JS map is sent to `[]`. -/
def Events : Type := String → List Listener

/-- `EventBus.off(eventName, listenerId)`: remove every listener whose
id is `listenerId` from the `eventName` entry (the source filters the
array by id and deletes the key when the result is empty, which in the
map-as-function model is the same entry update). -/
def offById (evs : Events) (eventName : String) (listenerId : Nat) : Events :=
  fun n => if n = eventName then (evs eventName).filter (fun l => l.id ≠ listenerId) else evs n

/-- The body of `EventBus.emit` for the event name `"error"`: iterate
over the copied listener list, invoke each callback, on normal return
remove the listener when it is a once-listener; on a throw the catch
block only updates statistics — the guard `eventName !== 'error'`
prevents a nested re-emission.  Returns the updated registry and the
trace of invocations `(eventName, listenerId)`. -/
def runError (beh : Nat → Bool) : Events → List Listener → Events × List (String × Nat)
  | evs, [] => (evs, [])
  | evs, l :: ls =>
    if beh l.id then
      let evs1 := if l.once then offById evs "error" l.id else evs
      let r := runError beh evs1 ls
      (r.1, ("error", l.id) :: r.2)
    else
      let r := runError beh evs ls
      (r.1, ("error", l.id) :: r.2)

/-- `EventBus.emit('error', ...)`. -/
def emitError (evs : Events) (beh : Nat → Bool) : Events × List (String × Nat) :=
  runError beh evs (evs "error")

/-- The body of `EventBus.emit` for an event name other than `"error"`:
as `runError`, except that the catch block re-emits the caught error as
an `'error'` event before the iteration proceeds with the next
listener. -/
def runEmit (eventName : String) (beh : Nat → Bool) :
    Events → List Listener → Events × List (String × Nat)
  | evs, [] => (evs, [])
  | evs, l :: ls =>
    if beh l.id then
      let evs1 := if l.once then offById evs eventName l.id else evs
      let r := runEmit eventName beh evs1 ls
      (r.1, (eventName, l.id) :: r.2)
    else
      let e := emitError evs beh
      let r := runEmit eventName beh e.1 ls
      (r.1, (eventName, l.id) :: (e.2 ++ r.2))

/-- `EventBus.emit(eventName, ...)`: copy the listener list for
`eventName` and process it (the source's early `return false` when the
map has no entry coincides with processing the empty list). -/
def emit (evs : Events) (eventName : String) (beh : Nat → Bool) :
    Events × List (String × Nat) :=
  if eventName = "error" then emitError evs beh
  else runEmit eventName beh evs (evs eventName)

/-- The sub-trace of invocations that an emission trace contains for
one event name, as a list of listener ids in invocation order. -/
def traceFor (tr : List (String × Nat)) (eventName : String) : List Nat :=
  (tr.filter (fun p => p.1 = eventName)).map Prod.snd

lemma traceFor_nil (n : String) : traceFor [] n = [] := rfl

lemma traceFor_cons_self (n : String) (i : Nat) (tr : List (String × Nat)) :
    traceFor ((n, i) :: tr) n = i :: traceFor tr n := by
  simp [traceFor]

lemma traceFor_cons_ne (m n : String) (i : Nat) (tr : List (String × Nat))
    (h : m ≠ n) : traceFor ((m, i) :: tr) n = traceFor tr n := by
  simp [traceFor, h]

lemma traceFor_append (a b : List (String × Nat)) (n : String) :
    traceFor (a ++ b) n = traceFor a n ++ traceFor b n := by
  simp [traceFor]

lemma runError_trace (beh : Nat → Bool) (evs : Events) (ls : List Listener) :
    (runError beh evs ls).2 = ls.map (fun l => ("error", l.id)) := by
  induction ls generalizing evs with
  | nil => rfl
  | cons l ls ih =>
    cases hb : beh l.id <;> simp [runError, hb, ih]

lemma traceFor_error_map (ls : List Listener) (n : String) (hne : n ≠ "error") :
    traceFor (ls.map (fun l => (("error" : String), l.id))) n = [] := by
  induction ls with
  | nil => rfl
  | cons l ls ih => rw [List.map_cons, traceFor_cons_ne _ _ _ _ (Ne.symm hne), ih]

lemma runEmit_trace_filter (eventName : String) (beh : Nat → Bool)
    (hne : eventName ≠ "error") (evs : Events) (ls : List Listener) :
    traceFor (runEmit eventName beh evs ls).2 eventName = ls.map Listener.id := by
  induction ls generalizing evs with
  | nil => rfl
  | cons l ls ih =>
    cases hb : beh l.id
    · have herr : traceFor (emitError evs beh).2 eventName = [] := by
        rw [emitError, runError_trace]
        exact traceFor_error_map _ _ hne
      simp only [runEmit, hb, Bool.false_eq_true, if_false]
      rw [traceFor_cons_self, traceFor_append, herr, List.nil_append, ih, List.map_cons]
    · simp only [runEmit, hb, if_true]
      rw [traceFor_cons_self, ih, List.map_cons]

lemma runEmit_trace_names (eventName : String) (beh : Nat → Bool)
    (evs : Events) (ls : List Listener) :
    ∀ p ∈ (runEmit eventName beh evs ls).2, p.1 = eventName ∨ p.1 = "error" := by
  induction ls generalizing evs with
  | nil => intro p hp; simp [runEmit] at hp
  | cons l ls ih =>
    intro p hp
    cases hb : beh l.id
    · simp only [runEmit, hb, Bool.false_eq_true, if_false, List.mem_cons,
        List.mem_append] at hp
      rcases hp with hp | hp | hp
      · left; rw [hp]
      · right
        rw [emitError, runError_trace] at hp
        obtain ⟨a, _, ha⟩ := List.mem_map.mp hp
        rw [← ha]
      · exact ih _ p hp
    · simp only [runEmit, hb, if_true, List.mem_cons] at hp
      rcases hp with hp | hp
      · left; rw [hp]
      · exact ih _ p hp

lemma emit_traceFor (evs : Events) (eventName : String) (beh : Nat → Bool) :
    traceFor (emit evs eventName beh).2 eventName = (evs eventName).map Listener.id := by
  by_cases hne : eventName = "error"
  · subst hne
    rw [emit, if_pos rfl, emitError, runError_trace]
    induction (evs "error") with
    | nil => rfl
    | cons l ls ih => rw [List.map_cons, traceFor_cons_self, ih, List.map_cons]
  · rw [emit, if_neg hne]
    exact runEmit_trace_filter eventName beh hne evs (evs eventName)

lemma emit_trace_names (evs : Events) (eventName : String) (beh : Nat → Bool) :
    ∀ p ∈ (emit evs eventName beh).2, p.1 = eventName ∨ p.1 = "error" := by
  by_cases hne : eventName = "error"
  · subst hne
    rw [emit, if_pos rfl, emitError, runError_trace]
    intro p hp
    obtain ⟨a, _, ha⟩ := List.mem_map.mp hp
    right; rw [← ha]
  · rw [emit, if_neg hne]
    exact runEmit_trace_names eventName beh evs (evs eventName)

/-- C1: `EventBus.emit(name, args)` invokes every listener registered
for `name` at the moment of emission exactly once, in registration
order — its trace of invocations for `name` is exactly the registered
listener-id list — even when callbacks throw (`beh` returning `false`
models a throw, which the source catches, so emission is a total
function and nothing propagates to the emitter); every other invocation
in the trace belongs to the `'error'` re-emissions performed by the
catch block for events other than `'error'`. -/
theorem C1_emit_delivers_to_all_listeners (evs : Events) (eventName : String)
    (beh : Nat → Bool) :
    traceFor (emit evs eventName beh).2 eventName = (evs eventName).map Listener.id
      ∧ ∀ p ∈ (emit evs eventName beh).2, p.1 = eventName ∨ p.1 = "error" :=
  ⟨emit_traceFor evs eventName beh, emit_trace_names evs eventName beh⟩

/-- Witness for C1 at a concrete bus: two listeners for `"a"`, the
first of which throws; both are still invoked, in order. -/
theorem C1_emit_delivers_to_all_listeners_witness :
    traceFor (emit (fun n => if n = "a" then [⟨1, false⟩, ⟨2, false⟩] else [])
      "a" (fun i => i == 2)).2 "a" = [1, 2] := by
  have h := (C1_emit_delivers_to_all_listeners
    (fun n => if n = "a" then [⟨1, false⟩, ⟨2, false⟩] else []) "a" (fun i => i == 2)).1
  rw [h]
  rfl

lemma offById_mem_rev (evs : Events) (n : String) (i : Nat) (m : String)
    (y : Listener) (hy : y ∈ offById evs n i m) : y ∈ evs m := by
  by_cases h : m = n
  · subst h
    rw [offById, if_pos rfl] at hy
    exact List.mem_of_mem_filter hy
  · rwa [offById, if_neg h] at hy

lemma offById_mem (evs : Events) (n : String) (i : Nat) (m : String)
    (y : Listener) (hy : y ∈ evs m) (hi : y.id ≠ i) : y ∈ offById evs n i m := by
  by_cases h : m = n
  · subst h
    rw [offById, if_pos rfl]
    exact List.mem_filter.mpr ⟨hy, by simpa using hi⟩
  · rwa [offById, if_neg h]

lemma runError_mem_rev (beh : Nat → Bool) (evs : Events) (ls : List Listener)
    (m : String) (y : Listener) (hy : y ∈ (runError beh evs ls).1 m) : y ∈ evs m := by
  induction ls generalizing evs with
  | nil => exact hy
  | cons l ls ih =>
    cases hb : beh l.id <;> simp only [runError, hb, Bool.false_eq_true,
      if_false, if_true] at hy
    · exact ih _ hy
    · cases ho : l.once <;> simp only [ho, Bool.false_eq_true, if_false, if_true] at hy
      · exact ih _ hy
      · exact offById_mem_rev _ _ _ _ _ (ih _ hy)

lemma runEmit_mem_rev (eventName : String) (beh : Nat → Bool) (evs : Events)
    (ls : List Listener) (m : String) (y : Listener)
    (hy : y ∈ (runEmit eventName beh evs ls).1 m) : y ∈ evs m := by
  induction ls generalizing evs with
  | nil => exact hy
  | cons l ls ih =>
    cases hb : beh l.id <;> simp only [runEmit, hb, Bool.false_eq_true,
      if_false, if_true] at hy
    · exact runError_mem_rev _ _ _ _ _ (ih _ hy)
    · cases ho : l.once <;> simp only [ho, Bool.false_eq_true, if_false, if_true] at hy
      · exact ih _ hy
      · exact offById_mem_rev _ _ _ _ _ (ih _ hy)

lemma runError_mem_kept (beh : Nat → Bool) (evs : Events) (ls : List Listener)
    (m : String) (x : Listener) (hbx : beh x.id = false) (hx : x ∈ evs m) :
    x ∈ (runError beh evs ls).1 m := by
  induction ls generalizing evs with
  | nil => exact hx
  | cons l ls ih =>
    cases hb : beh l.id <;> simp only [runError, hb, Bool.false_eq_true,
      if_false, if_true]
    · exact ih _ hx
    · cases ho : l.once <;> simp only [ho, Bool.false_eq_true, if_false, if_true]
      · exact ih _ hx
      · refine ih _ (offById_mem _ _ _ _ _ hx ?_)
        intro hxe
        rw [hxe] at hbx
        rw [hbx] at hb
        exact Bool.false_ne_true hb

lemma runEmit_mem_kept (eventName : String) (beh : Nat → Bool) (evs : Events)
    (ls : List Listener) (m : String) (x : Listener) (hbx : beh x.id = false)
    (hx : x ∈ evs m) : x ∈ (runEmit eventName beh evs ls).1 m := by
  induction ls generalizing evs with
  | nil => exact hx
  | cons l ls ih =>
    cases hb : beh l.id <;> simp only [runEmit, hb, Bool.false_eq_true,
      if_false, if_true]
    · exact ih _ (runError_mem_kept _ _ _ _ _ hbx hx)
    · cases ho : l.once <;> simp only [ho, Bool.false_eq_true, if_false, if_true]
      · exact ih _ hx
      · refine ih _ (offById_mem _ _ _ _ _ hx ?_)
        intro hxe
        rw [hxe] at hbx
        rw [hbx] at hb
        exact Bool.false_ne_true hb

lemma offById_id_ne (evs : Events) (n : String) (i : Nat) (y : Listener)
    (hy : y ∈ offById evs n i n) : y.id ≠ i := by
  rw [offById, if_pos rfl] at hy
  simpa using (List.mem_filter.mp hy).2

lemma runError_removes (beh : Nat → Bool) (evs : Events) (ls : List Listener)
    (l : Listener) (hl : l ∈ ls) (ho : l.once = true) (hb : beh l.id = true) :
    ∀ y ∈ (runError beh evs ls).1 "error", y.id ≠ l.id := by
  induction ls generalizing evs with
  | nil => cases hl
  | cons h t ih =>
    rcases List.mem_cons.mp hl with hl | hl
    · subst hl
      simp only [runError, hb, ho, if_true]
      intro y hy
      exact offById_id_ne _ _ _ _ (runError_mem_rev _ _ _ _ _ hy)
    · cases hbh : beh h.id <;> simp only [runError, hbh, Bool.false_eq_true,
        if_false, if_true]
      · exact fun y hy => ih _ hl y hy
      · cases hoh : h.once <;> simp only [hoh, Bool.false_eq_true, if_false, if_true]
        · exact fun y hy => ih _ hl y hy
        · exact fun y hy => ih _ hl y hy

lemma runEmit_removes (eventName : String) (beh : Nat → Bool) (evs : Events)
    (ls : List Listener) (l : Listener) (hl : l ∈ ls) (ho : l.once = true)
    (hb : beh l.id = true) :
    ∀ y ∈ (runEmit eventName beh evs ls).1 eventName, y.id ≠ l.id := by
  induction ls generalizing evs with
  | nil => cases hl
  | cons h t ih =>
    rcases List.mem_cons.mp hl with hl | hl
    · subst hl
      simp only [runEmit, hb, ho, if_true]
      intro y hy
      exact offById_id_ne _ _ _ _ (runEmit_mem_rev _ _ _ _ _ _ hy)
    · cases hbh : beh h.id <;> simp only [runEmit, hbh, Bool.false_eq_true,
        if_false, if_true]
      · exact fun y hy => ih _ hl y hy
      · cases hoh : h.once <;> simp only [hoh, Bool.false_eq_true, if_false, if_true]
        · exact fun y hy => ih _ hl y hy
        · exact fun y hy => ih _ hl y hy

lemma emit_removes_once (evs : Events) (eventName : String) (beh : Nat → Bool)
    (l : Listener) (hm : l ∈ evs eventName) (ho : l.once = true)
    (hb : beh l.id = true) :
    ∀ y ∈ (emit evs eventName beh).1 eventName, y.id ≠ l.id := by
  by_cases hne : eventName = "error"
  · subst hne
    rw [emit, if_pos rfl, emitError]
    exact runError_removes beh evs _ l hm ho hb
  · rw [emit, if_neg hne]
    exact runEmit_removes eventName beh evs _ l hm ho hb

lemma emit_keeps_thrown (evs : Events) (eventName : String) (beh : Nat → Bool)
    (l : Listener) (hm : l ∈ evs eventName) (hb : beh l.id = false) :
    l ∈ (emit evs eventName beh).1 eventName := by
  by_cases hne : eventName = "error"
  · subst hne
    rw [emit, if_pos rfl, emitError]
    exact runError_mem_kept beh evs _ _ l hb hm
  · rw [emit, if_neg hne]
    exact runEmit_mem_kept eventName beh evs _ _ l hb hm

lemma mem_trace_iff (evs : Events) (eventName : String) (beh : Nat → Bool)
    (i : Nat) :
    (eventName, i) ∈ (emit evs eventName beh).2 ↔
      i ∈ (evs eventName).map Listener.id := by
  have htr := emit_traceFor evs eventName beh
  constructor
  · intro h
    rw [← htr, traceFor]
    exact List.mem_map.mpr ⟨(eventName, i), List.mem_filter.mpr ⟨h, by simp⟩, rfl⟩
  · intro h
    rw [← htr, traceFor] at h
    obtain ⟨p, hp, hpi⟩ := List.mem_map.mp h
    have h1 := of_decide_eq_true (List.mem_filter.mp hp).2
    have := List.mem_filter.mp hp
    have : p = (eventName, i) := Prod.ext h1 hpi
    rw [← this]
    exact (List.mem_filter.mp hp).1

/-- C10: a `once` listener whose callback returns normally on its first
invocation is removed during that emission and is absent from the
registry afterwards, so no later emission of the event invokes it; if
its first invocation throws (`beh` gives `false`), the removal step in
the `try` block is skipped, the listener stays registered, and the next
emission of the same event invokes it again. -/
theorem C10_once_listener_removal (evs : Events) (eventName : String)
    (beh : Nat → Bool) (l : Listener) (hm : l ∈ evs eventName)
    (ho : l.once = true) :
    (beh l.id = true →
      l.id ∉ ((emit evs eventName beh).1 eventName).map Listener.id
        ∧ ∀ beh2, (eventName, l.id) ∉ (emit (emit evs eventName beh).1 eventName beh2).2)
      ∧ (beh l.id = false →
      l ∈ (emit evs eventName beh).1 eventName
        ∧ ∀ beh2, (eventName, l.id) ∈ (emit (emit evs eventName beh).1 eventName beh2).2) := by
  constructor
  · intro hb
    have hrem := emit_removes_once evs eventName beh l hm ho hb
    have hnotin : l.id ∉ ((emit evs eventName beh).1 eventName).map Listener.id := by
      intro hin
      obtain ⟨y, hy, hyi⟩ := List.mem_map.mp hin
      exact hrem y hy hyi
    refine ⟨hnotin, fun beh2 hin => hnotin ?_⟩
    exact (mem_trace_iff _ _ beh2 l.id).mp hin
  · intro hb
    have hkeep := emit_keeps_thrown evs eventName beh l hm hb
    refine ⟨hkeep, fun beh2 => ?_⟩
    exact (mem_trace_iff _ _ beh2 l.id).mpr (List.mem_map.mpr ⟨l, hkeep, rfl⟩)

/-- Witness for C10 at a concrete bus: one once-listener with id 1 for
event `"a"`, a behaviour under which it returns normally; the theorem's
hypotheses are discharged by computation. -/
theorem C10_once_listener_removal_witness :
    (⟨1, true⟩ : Listener) ∈ (fun n => if n = "a" then [(⟨1, true⟩ : Listener)] else []) "a"
      ∧ 1 ∉ ((emit (fun n => if n = "a" then [(⟨1, true⟩ : Listener)] else [])
          "a" (fun _ => true)).1 "a").map Listener.id := by
  refine ⟨by simp, ?_⟩
  exact ((C10_once_listener_removal
    (fun n => if n = "a" then [(⟨1, true⟩ : Listener)] else []) "a" (fun _ => true)
    ⟨1, true⟩ (by simp) rfl).1 rfl).1

/-! ### GenerationController (src/scripts/components/GenerationController.js)

`this.state.formData` is an open JS object filled by `form:dataChanged`
payloads; the fields that `validateForm` and `buildRequestPayload` read
are modelled explicitly.  A field that may still be `undefined` is an
`Option`; the string fields are plain `String` because `undefined` and
`""` behave identically under the `!x` truthiness tests applied to
them; a `File` value only matters through its truthiness, hence `Bool`.
`this.state.abortController` is `true` when a controller object is
stored, `false` for `null`. -/

structure GCForm where
  samples : Option Int
  temperature : Option ℚ
  scaffold : String
  fragment1 : String
  fragment2 : String
  scaffoldFile : Bool
  fragmentFile : Bool
  deriving DecidableEq, Repr

structure GCState where
  isGenerating : Bool
  currentMode : String
  formData : GCForm
  abortController : Bool
  deriving DecidableEq, Repr

/-- `!samples || samples < 1` (with `samples` possibly `undefined`;
`!0` is also truthy in JS). -/
def sampVLow (st : GCState) : Bool :=
  match st.formData.samples with
  | none => true
  | some n => decide (n = 0) || decide (n < 1)

/-- `samples > 500` (`undefined > 500` is `false`). -/
def sampVHigh (st : GCState) : Bool :=
  match st.formData.samples with
  | none => false
  | some n => decide (500 < n)

/-- `temperature < 0 || temperature > 2` — both comparisons are `false`
when `temperature` is `undefined` (NaN semantics). -/
def tempV (st : GCState) : Bool :=
  match st.formData.temperature with
  | none => false
  | some t => decide (t < 0) || decide (2 < t)

/-- `this.state.currentMode === 'Select Mode'`. -/
def modeV (st : GCState) : Bool :=
  st.currentMode = "Select Mode"

/-- Scaffold Decoration rule: `!scaffold && !scaffoldFile`. -/
def scafV (st : GCState) : Bool :=
  decide (st.currentMode = "Scaffold Decoration") &&
    decide (st.formData.scaffold = "") && !st.formData.scaffoldFile

/-- Fragment Linking rule: `!fragmentFile && (!fragment1 || !fragment2)`. -/
def fragV (st : GCState) : Bool :=
  decide (st.currentMode = "Fragment Linking") && !st.formData.fragmentFile &&
    (decide (st.formData.fragment1 = "") || decide (st.formData.fragment2 = ""))

def msgSampLow : String := "Please enter a sample size ≥ 1"
def msgSampHigh : String := "Sample size cannot exceed 500"
def msgTemp : String := "Temperature must be between 0 and 2"
def msgMode : String := "Please choose a generator mode"
def msgScaffold : String := "Please provide a scaffold SMILES or upload a scaffold file"
def msgFragment : String := "Please provide two fragment SMILES or upload a fragment file"

/-- The `errors` array built by `GenerationController.validateForm`, in
the push order of the source. -/
def gcErrors (st : GCState) : List String :=
  (if sampVLow st then [msgSampLow] else []) ++
    (if sampVHigh st then [msgSampHigh] else []) ++
    (if tempV st then [msgTemp] else []) ++
    (if modeV st then [msgMode] else []) ++
    (if scafV st then [msgScaffold] else []) ++
    (if fragV st then [msgFragment] else [])

structure ValidationResult where
  isValid : Bool
  errors : List String
  deriving DecidableEq, Repr

/-- `GenerationController.validateForm`. -/
def validateForm (st : GCState) : ValidationResult :=
  let errors := gcErrors st
  ⟨errors.isEmpty, errors⟩

/-- Observable effects of one click handling: event-bus emissions and
the two I/O-flavoured steps (issuing the fetch, firing the stored
abort controller). -/
inductive GCAction where
  | emitStart
  | apiRequest
  | emitComplete
  | emitError
  | emitCancelled
  | abortSignal
  deriving DecidableEq, Repr

/-- Outcome of the awaited `makeApiRequest` promise race, as seen by
`startGeneration`'s `try` block. -/
inductive ApiOutcome where
  | success
  | failure
  deriving DecidableEq, Repr

/-- `GenerationController.cancelGeneration`: fire the stored abort
controller when present, drop `isGenerating`, emit
`generation:cancelled`. -/
def cancelGeneration (st : GCState) : GCState × List GCAction :=
  ({ st with isGenerating := false },
    (if st.abortController then [GCAction.abortSignal] else []) ++ [GCAction.emitCancelled])

structure StepResult where
  state : GCState
  trace : List GCAction
  threw : Bool
  deriving DecidableEq, Repr

/-- `GenerationController.startGeneration`: throw on invalid form
before any request; otherwise set `isGenerating`, emit
`generation:start`, issue the request, emit `generation:complete` or
(`handleGenerationError` inside the catch, which then rethrows)
`generation:error`; the `finally` block clears `isGenerating` and the
abort controller. -/
def startGeneration (st : GCState) (outcome : ApiOutcome) : StepResult :=
  if !(validateForm st).isValid then
    ⟨st, [], true⟩
  else
    match outcome with
    | ApiOutcome.success =>
      ⟨{ st with isGenerating := false, abortController := false },
        [GCAction.emitStart, GCAction.apiRequest, GCAction.emitComplete], false⟩
    | ApiOutcome.failure =>
      ⟨{ st with isGenerating := false, abortController := false },
        [GCAction.emitStart, GCAction.apiRequest, GCAction.emitError], true⟩

/-- `GenerationController.handleClick`: cancel when a generation is in
flight, otherwise start one; a throw escaping `startGeneration` is
caught here and handed to `handleGenerationError`, which emits
`generation:error`. -/
def handleClick (st : GCState) (outcome : ApiOutcome) : GCState × List GCAction :=
  if st.isGenerating then
    cancelGeneration st
  else
    let r := startGeneration st outcome
    (r.state, r.trace ++ (if r.threw then [GCAction.emitError] else []))

/-- The `disabled` flag computed by
`GenerationController.updateButtonState`:
`!(validation.isValid && !isGenerating) && !isGenerating`. -/
def buttonDisabled (st : GCState) : Bool :=
  !((validateForm st).isValid && !st.isGenerating) && !st.isGenerating

/-- The button label set by `updateButtonState`. -/
def buttonLabel (st : GCState) : String :=
  if st.isGenerating then "Cancel" else "Generate"

/-- C2: when no generation is in flight and `validateForm` reports the
form invalid, clicking generate performs no network request and never
emits `generation:complete` (the trace contains neither action), and
`updateButtonState` computes the button as disabled. -/
theorem C2_invalid_form_blocks_request (st : GCState) (outcome : ApiOutcome)
    (hgen : st.isGenerating = false) (hval : (validateForm st).isValid = false) :
    GCAction.apiRequest ∉ (handleClick st outcome).2
      ∧ GCAction.emitComplete ∉ (handleClick st outcome).2
      ∧ GCAction.emitStart ∉ (handleClick st outcome).2
      ∧ buttonDisabled st = true := by
  have hclick : handleClick st outcome = (st, [GCAction.emitError]) := by
    simp [handleClick, hgen, startGeneration, hval]
  refine ⟨?_, ?_, ?_, ?_⟩
  · rw [hclick]; simp
  · rw [hclick]; simp
  · rw [hclick]; simp
  · rw [buttonDisabled, hval, hgen]; rfl

/-- Witness for C2 at the controller's initial state (mode
`"Select Mode"`, empty form data). -/
theorem C2_invalid_form_blocks_request_witness :
    (validateForm ⟨false, "Select Mode", ⟨none, none, "", "", "", false, false⟩, false⟩).isValid = false
      ∧ GCAction.apiRequest ∉
        (handleClick ⟨false, "Select Mode", ⟨none, none, "", "", "", false, false⟩, false⟩
          ApiOutcome.success).2 := by
  refine ⟨by decide, ?_⟩
  exact (C2_invalid_form_blocks_request _ ApiOutcome.success rfl (by decide)).1

/-- C3: clicking generate while `isGenerating` holds runs
`cancelGeneration` — the stored abort controller (when present) is
fired and `generation:cancelled` is emitted — and no new request
starts: the trace contains no `apiRequest` and no `generation:start`,
and the resulting state is no longer generating. -/
theorem C3_click_while_generating_cancels (st : GCState) (outcome : ApiOutcome)
    (hgen : st.isGenerating = true) :
    handleClick st outcome = cancelGeneration st
      ∧ GCAction.emitCancelled ∈ (handleClick st outcome).2
      ∧ (st.abortController = true → GCAction.abortSignal ∈ (handleClick st outcome).2)
      ∧ GCAction.apiRequest ∉ (handleClick st outcome).2
      ∧ GCAction.emitStart ∉ (handleClick st outcome).2
      ∧ (handleClick st outcome).1.isGenerating = false := by
  have hclick : handleClick st outcome = cancelGeneration st := by
    rw [handleClick, hgen]; rfl
  rw [hclick]
  refine ⟨rfl, ?_, ?_, ?_, ?_, rfl⟩
  · rw [cancelGeneration]; simp
  · intro hab
    rw [cancelGeneration, hab]; simp
  · rw [cancelGeneration]
    cases st.abortController <;> simp
  · rw [cancelGeneration]
    cases st.abortController <;> simp

/-- Witness for C3 at a concrete in-flight state with a stored abort
controller. -/
theorem C3_click_while_generating_cancels_witness :
    GCAction.emitCancelled ∈
      (handleClick ⟨true, "De Novo Generation", ⟨some 1, some 1, "", "", "", false, false⟩, true⟩
        ApiOutcome.success).2 :=
  (C3_click_while_generating_cancels _ ApiOutcome.success rfl).2.1

lemma sampVLow_iff (st : GCState) :
    sampVLow st = true ↔ ¬∃ n, st.formData.samples = some n ∧ 1 ≤ n := by
  cases h : st.formData.samples <;> simp [sampVLow, h] <;> omega

lemma sampV_false_iff (st : GCState) :
    (sampVLow st = false ∧ sampVHigh st = false) ↔
      ∃ n, st.formData.samples = some n ∧ 1 ≤ n ∧ n ≤ 500 := by
  cases h : st.formData.samples <;> simp [sampVLow, sampVHigh, h] <;> omega

lemma sampVHigh_iff (st : GCState) :
    sampVHigh st = true ↔ ∃ n, st.formData.samples = some n ∧ 500 < n := by
  cases h : st.formData.samples <;> simp [sampVHigh, h]

lemma tempV_iff (st : GCState) :
    tempV st = true ↔ ∃ t, st.formData.temperature = some t ∧ (t < 0 ∨ 2 < t) := by
  cases h : st.formData.temperature <;> simp [tempV, h]

lemma tempV_false_iff (st : GCState) :
    tempV st = false ↔ ∀ t, st.formData.temperature = some t → 0 ≤ t ∧ t ≤ 2 := by
  cases h : st.formData.temperature <;> simp [tempV, h, not_lt]

lemma modeV_true_iff (st : GCState) :
    modeV st = true ↔ st.currentMode = "Select Mode" := by
  simp [modeV]

lemma modeV_false_iff (st : GCState) :
    modeV st = false ↔ st.currentMode ≠ "Select Mode" := by
  simp [modeV]

lemma scafV_iff (st : GCState) :
    scafV st = true ↔
      st.currentMode = "Scaffold Decoration" ∧ st.formData.scaffold = ""
        ∧ st.formData.scaffoldFile = false := by
  by_cases hm : st.currentMode = "Scaffold Decoration" <;>
    by_cases hs : st.formData.scaffold = "" <;>
    cases hf : st.formData.scaffoldFile <;>
    simp [scafV, hm, hs, hf]

lemma scafV_false_iff (st : GCState) :
    scafV st = false ↔
      (st.currentMode = "Scaffold Decoration" →
        st.formData.scaffold ≠ "" ∨ st.formData.scaffoldFile = true) := by
  by_cases hm : st.currentMode = "Scaffold Decoration" <;>
    by_cases hs : st.formData.scaffold = "" <;>
    cases hf : st.formData.scaffoldFile <;>
    simp [scafV, hm, hs, hf]

lemma fragV_iff (st : GCState) :
    fragV st = true ↔
      st.currentMode = "Fragment Linking" ∧ st.formData.fragmentFile = false
        ∧ (st.formData.fragment1 = "" ∨ st.formData.fragment2 = "") := by
  by_cases hm : st.currentMode = "Fragment Linking" <;>
    by_cases h1 : st.formData.fragment1 = "" <;>
    by_cases h2 : st.formData.fragment2 = "" <;>
    cases hf : st.formData.fragmentFile <;>
    simp [fragV, hm, h1, h2, hf]

lemma fragV_false_iff (st : GCState) :
    fragV st = false ↔
      (st.currentMode = "Fragment Linking" →
        st.formData.fragmentFile = true
          ∨ (st.formData.fragment1 ≠ "" ∧ st.formData.fragment2 ≠ "")) := by
  by_cases hm : st.currentMode = "Fragment Linking" <;>
    by_cases h1 : st.formData.fragment1 = "" <;>
    by_cases h2 : st.formData.fragment2 = "" <;>
    cases hf : st.formData.fragmentFile <;>
    simp [fragV, hm, h1, h2, hf]

lemma mem_errFlag (b : Bool) (m e : String) :
    (e ∈ if b then [m] else []) ↔ b = true ∧ e = m := by
  cases b <;> simp

lemma gcErrors_isEmpty_iff (st : GCState) :
    (gcErrors st).isEmpty = true ↔
      sampVLow st = false ∧ sampVHigh st = false ∧ tempV st = false
        ∧ modeV st = false ∧ scafV st = false ∧ fragV st = false := by
  rw [gcErrors]
  cases h1 : sampVLow st <;> cases h2 : sampVHigh st <;> cases h3 : tempV st <;>
    cases h4 : modeV st <;> cases h5 : scafV st <;> cases h6 : fragV st <;> simp

/-- C7 counterexample: a state whose form data carries no temperature
at all (`formData.temperature` is still `undefined`): both comparisons
`temperature < 0` and `temperature > 2` are false in the source, so no
temperature error is pushed and `validateForm` reports `isValid =
true`, although no temperature in `[0,2]` is present — the claim's
"temperature ∈ [0,2]" is violated. -/
theorem C7_counterexample :
    (validateForm ⟨false, "De Novo Generation",
        ⟨some 1, none, "", "", "", false, false⟩, false⟩).isValid = true
      ∧ (⟨false, "De Novo Generation", ⟨some 1, none, "", "", "", false, false⟩,
          false⟩ : GCState).formData.temperature = none := by
  refine ⟨by decide, rfl⟩

/-- C7 (amended): `validateForm` reports `isValid = true` iff samples
is present and in `[1,500]`, the temperature — when present — is in
`[0,2]` (an absent temperature is not checked), the mode is not
`"Select Mode"`, and the mode-specific rules hold; and the `errors`
list contains exactly the messages of the violated rules. -/
theorem C7_validateForm_characterization (st : GCState) :
    ((validateForm st).isValid = true ↔
      (∃ n, st.formData.samples = some n ∧ 1 ≤ n ∧ n ≤ 500)
        ∧ (∀ t, st.formData.temperature = some t → 0 ≤ t ∧ t ≤ 2)
        ∧ st.currentMode ≠ "Select Mode"
        ∧ (st.currentMode = "Scaffold Decoration" →
            st.formData.scaffold ≠ "" ∨ st.formData.scaffoldFile = true)
        ∧ (st.currentMode = "Fragment Linking" →
            st.formData.fragmentFile = true
              ∨ (st.formData.fragment1 ≠ "" ∧ st.formData.fragment2 ≠ "")))
      ∧ ∀ e, e ∈ (validateForm st).errors ↔
        (((¬∃ n, st.formData.samples = some n ∧ 1 ≤ n) ∧ e = msgSampLow)
          ∨ ((∃ n, st.formData.samples = some n ∧ 500 < n) ∧ e = msgSampHigh)
          ∨ ((∃ t, st.formData.temperature = some t ∧ (t < 0 ∨ 2 < t)) ∧ e = msgTemp)
          ∨ (st.currentMode = "Select Mode" ∧ e = msgMode)
          ∨ ((st.currentMode = "Scaffold Decoration" ∧ st.formData.scaffold = ""
              ∧ st.formData.scaffoldFile = false) ∧ e = msgScaffold)
          ∨ ((st.currentMode = "Fragment Linking" ∧ st.formData.fragmentFile = false
              ∧ (st.formData.fragment1 = "" ∨ st.formData.fragment2 = "")) ∧ e = msgFragment)) := by
  constructor
  · show (gcErrors st).isEmpty = true ↔ _
    rw [gcErrors_isEmpty_iff]
    rw [← sampV_false_iff, tempV_false_iff, modeV_false_iff, scafV_false_iff,
      fragV_false_iff]
    tauto
  · intro e
    show e ∈ gcErrors st ↔ _
    rw [gcErrors]
    simp only [List.mem_append, mem_errFlag]
    rw [sampVLow_iff, sampVHigh_iff, tempV_iff, modeV_true_iff, scafV_iff, fragV_iff]
    simp only [or_assoc]

/-- Witness for C7's amended characterization at a fully valid concrete
state, extracting the validity direction. -/
theorem C7_validateForm_characterization_witness :
    (validateForm ⟨false, "De Novo Generation",
        ⟨some 10, some 1, "", "", "", false, false⟩, false⟩).isValid = true := by
  refine ((C7_validateForm_characterization _).1).mpr ?_
  refine ⟨⟨10, rfl, by norm_num, by norm_num⟩, ?_, by decide, ?_, ?_⟩
  · intro t ht
    have h1 : (1 : ℚ) = t := Option.some.inj ht
    rw [← h1]
    norm_num
  · intro h
    exact absurd h (by decide)
  · intro h
    exact absurd h (by decide)

/-! ### PropertyForm (src/unnamed/part_001)

`this.state` holds `samples` (integer) and `temperature` (float,
modelled as `ℚ`).  The raw content of the samples text field is
abstracted to the three cases `parseInt` distinguishes: empty, numeric,
and non-numeric (`parseInt` returning `NaN` is `Option.none`).
Configuration constants are the source's `this.config` values
(samples min 1 / max 500, temperature min 0 / max 2). -/

structure PFState where
  samples : Int
  temperature : ℚ
  deriving DecidableEq, Repr

/-- The raw text of the samples input as `parseInt(rawValue, 10)` sees
it: empty string, a non-numeric string (both parse to `NaN`), or a
numeric string with integer value `n`. -/
inductive RawInput where
  | empty
  | nonNumeric
  | num (n : Int)
  deriving DecidableEq, Repr

/-- `parseInt(rawValue, 10)`, with `NaN` as `none`. -/
def parseIntRaw : RawInput → Option Int
  | RawInput.empty => none
  | RawInput.nonNumeric => none
  | RawInput.num n => some n

/-- `PropertyForm.handleSamplesChange`: sanitize the parsed value
(`NaN` or below `min` ↦ `min`; above `max` ↦ `max`) and store it when
it differs from the current state. -/
def handleSamplesChange (st : PFState) (raw : RawInput) : PFState :=
  let sanitizedValue : Int :=
    match parseIntRaw raw with
    | none => 1
    | some n => if n < 1 then 1 else if n > 500 then 500 else n
  if st.samples ≠ sanitizedValue then { st with samples := sanitizedValue } else st

/-- The test `parseInt(event.target.value) < this.config.samples.min`:
a NaN comparison is false, so a non-numeric parse yields `false`. -/
def blurBelowMin (raw : RawInput) : Bool :=
  match parseIntRaw raw with
  | some n => decide (n < 1)
  | none => false

/-- `PropertyForm.handleSamplesBlur`: when the field is empty or its
parsed value is below the minimum, snap the stored samples to the
minimum 1. -/
def handleSamplesBlur (st : PFState) (raw : RawInput) : PFState :=
  if raw = RawInput.empty ∨ blurBelowMin raw then
    { st with samples := 1 }
  else st

/-- `PropertyForm.handleTemperatureChange`: store
`parseFloat(event.target.value)` when it differs from the current
state — the handler performs no clamping. -/
def handleTemperatureChange (st : PFState) (v : ℚ) : PFState :=
  if st.temperature ≠ v then { st with temperature := v } else st

/-- `PropertyForm.handleFormDataSet` (the `form:setInitialValues` /
`setFormData` path): each provided numeric field that differs from the
stored one is clamped with `Math.max(min, Math.min(max, x))` and
stored. -/
def handleFormDataSet (st : PFState) (dataSamples : Option Int)
    (dataTemperature : Option ℚ) : PFState :=
  let st1 :=
    match dataSamples with
    | some s => if s ≠ st.samples then { st with samples := max 1 (min 500 s) } else st
    | none => st
  match dataTemperature with
  | some t =>
    if t ≠ st1.temperature then { st1 with temperature := max 0 (min 2 t) } else st1
  | none => st1

/-- C4 counterexample: submitting the out-of-range float `5/2` through
the temperature control's input handler stores `5/2` itself — the
stored value is not clamped into `[0,2]`, contradicting the claim
(clamping happens only on the `handleFormDataSet` path). -/
theorem C4_counterexample :
    (handleTemperatureChange ⟨1, 1⟩ (5/2)).temperature = 5/2
      ∧ ¬((handleTemperatureChange ⟨1, 1⟩ (5/2)).temperature ≤ 2) := by
  constructor
  · rw [handleTemperatureChange, if_pos (by norm_num)]
  · rw [handleTemperatureChange, if_pos (by norm_num)]
    norm_num

/-- C4 (amended): a float that reaches the stored temperature through
`handleFormDataSet` (external updates such as `form:setInitialValues`)
and differs from the current value is clamped into `[0,2]` on store;
the slider's own `handleTemperatureChange` stores the parsed value
unclamped (the DOM range control constrains it instead). -/
theorem C4_temperature_clamped_on_set (st : PFState) (dataSamples : Option Int)
    (q : ℚ) (hq : q ≠ st.temperature) :
    (handleFormDataSet st dataSamples (some q)).temperature = max 0 (min 2 q)
      ∧ 0 ≤ (handleFormDataSet st dataSamples (some q)).temperature
      ∧ (handleFormDataSet st dataSamples (some q)).temperature ≤ 2 := by
  have hst1 : (handleFormDataSet st dataSamples (some q)).temperature = max 0 (min 2 q) := by
    cases dataSamples with
    | none => simp [handleFormDataSet, hq]
    | some s =>
      by_cases hs : s ≠ st.samples <;> simp [handleFormDataSet, hs, hq]
  refine ⟨hst1, ?_, ?_⟩
  · rw [hst1]; exact le_max_left 0 (min 2 q)
  · rw [hst1]
    exact max_le (by norm_num) (min_le_left 2 q)

/-- Witness for C4's amended theorem at the out-of-range value `3`. -/
theorem C4_temperature_clamped_on_set_witness :
    (handleFormDataSet ⟨1, 1⟩ none (some 3)).temperature = 2 := by
  have h := (C4_temperature_clamped_on_set ⟨1, 1⟩ none 3 (by norm_num)).1
  rw [h]
  norm_num

/-- C5: every integer submitted to the samples field is clamped into
`[1,500]` by `handleSamplesChange` — non-numeric or below-minimum input
stores 1, input above 500 stores 500, and the stored value always lands
in `[1,500]` — and on blur an empty or below-minimum field snaps the
stored samples to the minimum 1 (in particular a field reading `0`
stores 1 after blur). -/
theorem C5_samples_clamped (st : PFState) (raw : RawInput) :
    (parseIntRaw raw = none → (handleSamplesChange st raw).samples = 1)
      ∧ (∀ n, parseIntRaw raw = some n → n < 1 → (handleSamplesChange st raw).samples = 1)
      ∧ (∀ n, parseIntRaw raw = some n → 500 < n → (handleSamplesChange st raw).samples = 500)
      ∧ (∀ n, parseIntRaw raw = some n → 1 ≤ n → n ≤ 500 → (handleSamplesChange st raw).samples = n)
      ∧ (1 ≤ (handleSamplesChange st raw).samples ∧ (handleSamplesChange st raw).samples ≤ 500)
      ∧ ((raw = RawInput.empty ∨ (∃ n, parseIntRaw raw = some n ∧ n < 1)) →
          (handleSamplesBlur st raw).samples = 1) := by
  have hsan : (handleSamplesChange st raw).samples =
      (match parseIntRaw raw with
        | none => 1
        | some n => if n < 1 then 1 else if n > 500 then 500 else n) := by
    rw [handleSamplesChange]
    split <;> simp_all
  refine ⟨?_, ?_, ?_, ?_, ?_, ?_⟩
  · intro hn
    rw [hsan, hn]
  · intro n hn hlt
    rw [hsan, hn]
    simp [hlt]
  · intro n hn hgt
    rw [hsan, hn]
    have h1 : ¬(n < 1) := by omega
    simp [h1, hgt]
  · intro n hn h1 h500
    rw [hsan, hn]
    have hn1 : ¬(n < 1) := by omega
    have hn5 : ¬(n > 500) := by omega
    simp [hn1, hn5]
  · cases raw with
    | empty => rw [hsan]; exact ⟨by decide, by decide⟩
    | nonNumeric => rw [hsan]; exact ⟨by decide, by decide⟩
    | num n =>
      rw [hsan]
      simp only [parseIntRaw]
      split_ifs <;> omega
  · intro hr
    have hc : raw = RawInput.empty ∨ blurBelowMin raw = true := by
      rcases hr with hr | ⟨n, hn, hlt⟩
      · exact Or.inl hr
      · right
        unfold blurBelowMin
        rw [hn]
        exact decide_eq_true hlt
    rw [handleSamplesBlur, if_pos hc]

/-- Witness for C5: `samples = 0` typed into the field is stored as 1,
and a field reading `0` snaps to 1 on blur. -/
theorem C5_samples_clamped_witness :
    (handleSamplesChange ⟨5, 1⟩ (RawInput.num 0)).samples = 1
      ∧ (handleSamplesBlur ⟨5, 1⟩ (RawInput.num 0)).samples = 1 := by
  constructor
  · exact (C5_samples_clamped ⟨5, 1⟩ (RawInput.num 0)).2.1 0 rfl (by norm_num)
  · exact (C5_samples_clamped ⟨5, 1⟩ (RawInput.num 0)).2.2.2.2.2
      (Or.inr ⟨0, rfl, by norm_num⟩)

/-! ### Mode changes across the holders of form state

Three objects hold form state: the App's canonical `formData`
(src/unnamed/part_004, `MolGPTApp.handleModeChange`), the ModeManager's
field state (`ModeManager.handleModeChange` → `clearFormData`), and the
GenerationController's accumulated `formData`
(`GenerationController.handleModeChange`). -/

structure AppForm where
  samples : Int
  temperature : ℚ
  scaffold : String
  fragment1 : String
  fragment2 : String
  scaffoldFile : Bool
  fragmentFile : Bool
  deriving DecidableEq, Repr

/-- `MolGPTApp.getDefaultFormData`. -/
def getDefaultFormData : AppForm := ⟨0, 1, "", "", "", false, false⟩

structure AppState where
  currentMode : String
  isGenerating : Bool
  formData : AppForm
  deriving DecidableEq, Repr

/-- `MolGPTApp.handleModeChange`: rebuild `formData` from
`getDefaultFormData`, carrying over only the preserved `samples` and
`temperature`. -/
def appHandleModeChange (st : AppState) (newMode : String) : AppState :=
  { st with
      currentMode := newMode,
      formData := { getDefaultFormData with
        samples := st.formData.samples,
        temperature := st.formData.temperature } }

/-- ModeManager form-data dictionary (src/unnamed/part_003 field set;
string fields are `Option` because a key is absent until its input
fires, file entries matter only through truthiness). -/
structure MMForm where
  scaffold : Option String
  fragment1 : Option String
  fragment2 : Option String
  startingMolecule : Option String
  similarity : Option String
  scaffoldFile : Bool
  fragmentFile : Bool
  transformationFile : Bool
  deriving DecidableEq, Repr

/-- The empty dictionary `{}`. -/
def mmEmptyForm : MMForm := ⟨none, none, none, none, none, false, false, false⟩

structure MMState where
  currentMode : String
  formData : MMForm
  deriving DecidableEq, Repr

/-- `ModeManager.clearFormData`: `this.state.formData = {}` (the DOM
field and label resets have no model state). -/
def mmClearFormData (st : MMState) : MMState :=
  { st with formData := mmEmptyForm }

/-- `ModeManager.handleModeChange` with a string payload: early return
when the mode is unchanged, otherwise store the mode, re-render the
content, and clear the form data. -/
def mmHandleModeChange (st : MMState) (mode : String) : MMState :=
  if mode = st.currentMode then st
  else mmClearFormData { st with currentMode := mode }

/-- `GenerationController.handleModeChange`: store the new mode and
recompute the button state — the accumulated `formData` is not
touched. -/
def gcHandleModeChange (st : GCState) (newMode : String) : GCState :=
  { st with currentMode := newMode }

/-- C6 counterexample: a GenerationController that accumulated
`scaffold = "CCO"` keeps it across a mode change — `handleModeChange`
only updates `currentMode`, so the claim's "cleared to their defaults
… for every holder of form state" fails for the controller's
accumulated form data. -/
theorem C6_counterexample :
    (gcHandleModeChange
        ⟨false, "Scaffold Decoration", ⟨some 5, some 1, "CCO", "", "", false, false⟩, false⟩
        "Fragment Linking").formData.scaffold = "CCO"
      ∧ ("CCO" : String) ≠ "" := by
  exact ⟨rfl, by decide⟩

/-- C6 (amended): on a mode change the App's canonical `formData` is
reset to the defaults with `samples` and `temperature` preserved, and
the ModeManager's field state is cleared to the empty dictionary (its
state never holds samples or temperature); the GenerationController's
accumulated `formData`, by contrast, is left unchanged — only its
`currentMode` is updated. -/
theorem C6_mode_change_clearing (ast : AppState) (m1 : String) (mst : MMState)
    (m2 : String) (hm2 : m2 ≠ mst.currentMode) (gst : GCState) (m3 : String) :
    ((appHandleModeChange ast m1).formData.samples = ast.formData.samples
      ∧ (appHandleModeChange ast m1).formData.temperature = ast.formData.temperature
      ∧ (appHandleModeChange ast m1).formData.scaffold = ""
      ∧ (appHandleModeChange ast m1).formData.fragment1 = ""
      ∧ (appHandleModeChange ast m1).formData.fragment2 = ""
      ∧ (appHandleModeChange ast m1).formData.scaffoldFile = false
      ∧ (appHandleModeChange ast m1).formData.fragmentFile = false)
      ∧ (mmHandleModeChange mst m2).formData = mmEmptyForm
      ∧ (gcHandleModeChange gst m3).formData = gst.formData
      ∧ (gcHandleModeChange gst m3).currentMode = m3 := by
  refine ⟨⟨rfl, rfl, rfl, rfl, rfl, rfl, rfl⟩, ?_, rfl, rfl⟩
  rw [mmHandleModeChange, if_neg hm2]
  rfl

/-- Witness for C6's amended theorem at concrete states. -/
theorem C6_mode_change_clearing_witness :
    (mmHandleModeChange ⟨"Select Mode", mmEmptyForm⟩ "Fragment Linking").formData
      = mmEmptyForm :=
  (C6_mode_change_clearing
    ⟨"Select Mode", false, ⟨0, 1, "", "", "", false, false⟩⟩ "De Novo Generation"
    ⟨"Select Mode", mmEmptyForm⟩ "Fragment Linking" (by decide)
    ⟨false, "Select Mode", ⟨none, none, "", "", "", false, false⟩, false⟩
    "De Novo Generation").2.1

/-! ### ModeManager.validateInput

Two versions of `ModeManager.validateInput` are present: the one in
src/scripts/components/ModeManager.js tests a populated "smiles" field
against `/^[A-Za-z0-9\(\)\[\]@=#\-\+\.\\\/:]+$/`, the one in
src/unnamed/part_003 against the same class extended with the wildcard
`*`.  The applied CSS class is `none` when the value is empty (no
valid/invalid class), otherwise `some` of the computed validity. -/

/-- The character class `[A-Za-z0-9()\[\]@=#\-+.\\/:]` that both
patterns share. -/
def smilesBaseChar (c : Char) : Bool :=
  c.isAlpha || c.isDigit || c == '(' || c == ')' || c == '[' || c == ']' ||
    c == '@' || c == '=' || c == '#' || c == '-' || c == '+' || c == '.' ||
    c == '\\' || c == '/' || c == ':'

/-- `/^[...]+$/.test(value)` for the class without the wildcard: at
least one character and every character in the class. -/
def regexTestMM (v : String) : Bool :=
  !v.data.isEmpty && v.data.all smilesBaseChar

/-- `/^[...*]+$/.test(value)` for the class with the wildcard. -/
def regexTestP3 (v : String) : Bool :=
  !v.data.isEmpty && v.data.all (fun c => smilesBaseChar c || c == '*')

/-- `validateInput` of src/scripts/components/ModeManager.js on a
"smiles" input: `isValid = value.length > 0 && regex.test(value)`, and
a validity class is applied only when `value.length > 0`. -/
def validateInputMM (v : String) : Option Bool :=
  let isValid := decide (v.length > 0) && regexTestMM v
  if v.length > 0 then some isValid else none

/-- `validateInput` of the src/unnamed/part_003 version, whose pattern
includes the wildcard `*`. -/
def validateInputP3 (v : String) : Option Bool :=
  let isValid := decide (v.length > 0) && regexTestP3 v
  if v.length > 0 then some isValid else none

/-- C8 counterexample: the lone wildcard `"*"` consists only of the
claim's allowed characters, yet the
src/scripts/components/ModeManager.js version classifies it invalid —
its character class omits `*`. -/
theorem C8_counterexample :
    validateInputMM "*" = some false
      ∧ ∀ c ∈ ("*" : String).data, smilesBaseChar c = true ∨ c = '*' := by
  exact ⟨by decide, by decide⟩

lemma ne_empty_length_pos (v : String) (hne : v ≠ "") : v.length > 0 := by
  have hd : v.data ≠ [] := by
    intro h
    exact hne (by cases v with
      | mk data => simp at h; rw [h])
  show v.data.length > 0
  exact List.length_pos.mpr hd

/-- C8 (amended): for a non-empty value the part_003
`ModeManager.validateInput` applies the valid class iff every character
is an ASCII letter, a digit, one of `()[]@=#-+.\/:` or the wildcard
`*`; the src/scripts/components/ModeManager.js version applies it iff
every character is in the same class without `*` (so any value
containing the wildcard is rejected there); an empty value gets no
class in either version. -/
theorem C8_validateInput_characterization (v : String) :
    (v = "" → validateInputMM v = none ∧ validateInputP3 v = none)
      ∧ (v ≠ "" →
        ((validateInputP3 v = some true ↔
            ∀ c ∈ v.data, smilesBaseChar c = true ∨ c = '*')
          ∧ (validateInputMM v = some true ↔ ∀ c ∈ v.data, smilesBaseChar c = true))) := by
  constructor
  · intro hv
    subst hv
    exact ⟨rfl, rfl⟩
  · intro hne
    have hlen : v.length > 0 := ne_empty_length_pos v hne
    have hdne : v.data ≠ [] := by
      intro h
      have h2 : v.data.length > 0 := hlen
      rw [h] at h2
      simp at h2
    have hd : v.data.isEmpty = false := by
      cases hv : v.data with
      | nil => exact absurd hv hdne
      | cons c cs => rfl
    constructor
    · rw [validateInputP3]
      simp only [if_pos hlen, Option.some.injEq]
      simp [regexTestP3, hlen, hd, List.all_eq_true]
    · rw [validateInputMM]
      simp only [if_pos hlen, Option.some.injEq]
      simp [regexTestMM, hlen, hd, List.all_eq_true]

/-- Witness for C8's amended characterization: `"CCO"` is classified
valid by the src/scripts/components version. -/
theorem C8_validateInput_characterization_witness :
    validateInputMM "CCO" = some true :=
  ((C8_validateInput_characterization "CCO").2 (by decide)).2.mpr (by decide)

/-! ### ResultsDisplay (src/unnamed/part_002, first version — the one
with `csv_url` handling)

The HTML fragments are modelled as the strings the source builds and
assigns to `innerHTML` (the fixed indentation/newlines of the template
literals are dropped; only the markup and the interpolation points are
kept).  `escapeHtml` chains five global single-character
`String.replace` calls, `&` first; since no replacement text contains a
character that a later replacement rewrites, the chain equals the
character-wise expansion used here. -/

def API_BASE : String := "https://molgpt-be.onrender.com"

/-- The per-character expansion of `ResultsDisplay.escapeHtml`'s
replacement chain. -/
def escapeHtmlChar (c : Char) : List Char :=
  if c = '&' then "&amp;".data
  else if c = '<' then "&lt;".data
  else if c = '>' then "&gt;".data
  else if c = '"' then "&quot;".data
  else if c = '\'' then "&#039;".data
  else [c]

/-- `ResultsDisplay.escapeHtml`. -/
def escapeHtml (s : String) : String :=
  ⟨(s.data.map escapeHtmlChar).flatten⟩

/-- Occurrences of one character in a string. -/
def countChar (s : String) (c : Char) : Nat :=
  s.data.count c

/-- `ResultsDisplay.createGenerationTimestamp` (the stored
`lastGeneration` is passed as the already-formatted timestamp, `none`
when no generation happened yet): a csv url starting with `/` gets
`API_BASE` prefixed, otherwise it is used as-is, and the result is
interpolated into the download link's `href` without `escapeHtml`. -/
def createGenerationTimestamp (lastGeneration : Option String)
    (csvUrl : Option String) : String :=
  match lastGeneration with
  | none => ""
  | some timestamp =>
    let fullCsvUrl : Option String :=
      match csvUrl with
      | none => none
      | some u => some (if u.data.head? = some '/' then API_BASE ++ u else u)
    let downloadButton : String :=
      match fullCsvUrl with
      | some full =>
        "<a href=\"" ++ full ++ "\" download class=\"results__download-button\">Download CSV</a>"
      | none => ""
    "<div class=\"results__timestamp-container\"><p class=\"results__timestamp\">Generated at "
      ++ timestamp ++ "</p>" ++ downloadButton ++ "</div>"

structure Molecule where
  smiles : String
  valid : Bool
  deriving DecidableEq, Repr

/-- `ResultsDisplay.createMoleculeItem`: the SMILES text is passed
through `escapeHtml` before interpolation. -/
def createMoleculeItem (m : Molecule) (index : Nat) : String :=
  let validityClass :=
    if m.valid then "results__molecule-item--valid" else "results__molecule-item--invalid"
  let validityLabel :=
    if m.valid then "" else "<span class=\"results__validity-indicator\">(invalid)</span>"
  "<div class=\"results__molecule-item " ++ validityClass ++
    "\"><span class=\"results__molecule-index\">" ++ toString (index + 1) ++
    ":</span><code class=\"results__molecule-code\">" ++ escapeHtml m.smiles ++
    "</code>" ++ validityLabel ++ "</div>"

/-- `ResultsDisplay.renderProgress`'s `innerHTML`: the message is
escaped. -/
def renderProgressHtml (message : String) : String :=
  "<div class=\"results__loading\"><div class=\"results__loading-indicator\"><div class=\"results__spinner\"></div><p class=\"results__loading-text\">"
    ++ escapeHtml message ++ "</p></div></div>"

/-- `ResultsDisplay.renderError`'s `innerHTML`: the error message is
escaped. -/
def renderErrorHtml (errorMessage : String) : String :=
  "<div class=\"results__error\"><div class=\"results__error-icon\">!</div><div class=\"results__error-content\"><h3 class=\"results__error-title\">Generation Error</h3><p class=\"results__error-message\">"
    ++ escapeHtml errorMessage ++
    "</p><p class=\"results__error-suggestion\">Please check your inputs and try again. If the problem persists, ensure the API server is running and accessible.</p></div></div>"

lemma countChar_append (a b : String) (c : Char) :
    countChar (a ++ b) c = countChar a c + countChar b c := by
  simp [countChar]

lemma mem_escapeHtmlChar (ch : Char) :
    ∀ d ∈ escapeHtmlChar ch, d ≠ '<' ∧ d ≠ '>' ∧ d ≠ '"' ∧ d ≠ '\'' := by
  intro d hd
  rw [escapeHtmlChar] at hd
  split_ifs at hd with h1 h2 h3 h4 h5
  · exact (by decide :
      ∀ x ∈ ("&amp;" : String).data, x ≠ '<' ∧ x ≠ '>' ∧ x ≠ '"' ∧ x ≠ '\'') d hd
  · exact (by decide :
      ∀ x ∈ ("&lt;" : String).data, x ≠ '<' ∧ x ≠ '>' ∧ x ≠ '"' ∧ x ≠ '\'') d hd
  · exact (by decide :
      ∀ x ∈ ("&gt;" : String).data, x ≠ '<' ∧ x ≠ '>' ∧ x ≠ '"' ∧ x ≠ '\'') d hd
  · exact (by decide :
      ∀ x ∈ ("&quot;" : String).data, x ≠ '<' ∧ x ≠ '>' ∧ x ≠ '"' ∧ x ≠ '\'') d hd
  · exact (by decide :
      ∀ x ∈ ("&#039;" : String).data, x ≠ '<' ∧ x ≠ '>' ∧ x ≠ '"' ∧ x ≠ '\'') d hd
  · have hde : d = ch := List.mem_singleton.mp hd
    subst hde
    exact ⟨h2, h3, h4, h5⟩

lemma escapeHtml_count (s : String) (c : Char)
    (hc : c = '<' ∨ c = '>' ∨ c = '"' ∨ c = '\'') :
    countChar (escapeHtml s) c = 0 := by
  show ((s.data.map escapeHtmlChar).flatten).count c = 0
  induction s.data with
  | nil => rfl
  | cons ch l ih =>
    rw [List.map_cons, List.flatten_cons, List.count_append, ih, Nat.add_zero]
    refine List.count_eq_zero.mpr ?_
    intro hmem
    obtain ⟨hlt, hgt, hq, hap⟩ := mem_escapeHtmlChar ch c hmem
    rcases hc with hc | hc | hc | hc
    · exact hlt hc
    · exact hgt hc
    · exact hq hc
    · exact hap hc

lemma escapeHtml_count_lt (s : String) : countChar (escapeHtml s) '<' = 0 :=
  escapeHtml_count s _ (Or.inl rfl)

lemma escapeHtml_count_quot (s : String) : countChar (escapeHtml s) '"' = 0 :=
  escapeHtml_count s _ (Or.inr (Or.inr (Or.inl rfl)))

/-- C9 counterexample: the csv url `"/r\"><x>"` injects one raw `"`
(closing the `href` attribute) and one raw `<` (opening a tag) into
the rendered timestamp fragment — the url is interpolated without
`escapeHtml`, whose output never contains those characters (third
conjunct), so the claim that the csv download url is escaped before
insertion is false. -/
theorem C9_counterexample :
    countChar (createGenerationTimestamp (some "12:00:00") (some "/r\"><x>")) '<'
        = countChar (createGenerationTimestamp (some "12:00:00") (some "/r")) '<' + 1
      ∧ countChar (createGenerationTimestamp (some "12:00:00") (some "/r\"><x>")) '"'
        = countChar (createGenerationTimestamp (some "12:00:00") (some "/r")) '"' + 1
      ∧ countChar (escapeHtml "/r\"><x>") '<' = 0
        ∧ countChar (escapeHtml "/r\"><x>") '"' = 0 := by
  refine ⟨by decide, by decide, by decide, by decide⟩

/-- C9 (amended): the SMILES strings, progress messages and error
messages that ResultsDisplay interpolates into its `innerHTML`
fragments pass through `escapeHtml`, so the number of `<` and of `"`
characters in those fragments does not depend on the interpolated
text (no user text can open a tag or break out of an attribute); the
csv download url in the timestamp fragment is the one interpolation
point without `escapeHtml` (counterexample above). -/
theorem C9_interpolations_escaped (message errorMessage smiles : String)
    (valid : Bool) (i : Nat) :
    (countChar (renderProgressHtml message) '<' = countChar (renderProgressHtml "") '<'
      ∧ countChar (renderProgressHtml message) '"' = countChar (renderProgressHtml "") '"')
      ∧ (countChar (renderErrorHtml errorMessage) '<' = countChar (renderErrorHtml "") '<'
        ∧ countChar (renderErrorHtml errorMessage) '"' = countChar (renderErrorHtml "") '"')
      ∧ (countChar (createMoleculeItem ⟨smiles, valid⟩ i) '<'
          = countChar (createMoleculeItem ⟨"", valid⟩ i) '<'
        ∧ countChar (createMoleculeItem ⟨smiles, valid⟩ i) '"'
          = countChar (createMoleculeItem ⟨"", valid⟩ i) '"') := by
  refine ⟨⟨?_, ?_⟩, ⟨?_, ?_⟩, ⟨?_, ?_⟩⟩ <;>
    simp [renderProgressHtml, renderErrorHtml, createMoleculeItem,
      countChar_append, escapeHtml_count_lt, escapeHtml_count_quot]

end MolGPT
